import Mathlib

/-!
Shallow embedding of the JWT validation middleware of
`internal/api/middleware/jwt.go` (collabhub-music-backend).

The middleware validates Keycloak-issued bearer tokens:
  * `ValidateJWT` — the gin handler: checks the declared algorithm
    (type assertion to `*jwt.SigningMethodRSA`, i.e. RS256/RS384/RS512),
    extracts the `kid` header, resolves the public key, lets the
    golang-jwt v5 library verify the signature and validate registered
    claims (expiry / not-before when present), re-checks expiry itself,
    and only then stores the identity attributes in the request context.
  * `getPublicKey` — a double-checked-locking cache of RSA public keys
    with a one-hour TTL, refreshed from the provider's JWKS endpoint.
  * `parseRSAPublicKey` — reconstructs an `rsa.PublicKey` from a JWK's
    base64url (unpadded) big-endian `n`/`e` fields, range-checking the
    exponent with `IsInt64`.

Machine integers are modelled as `Nat` (all quantities involved are
non-negative: byte values, timestamps, big.Int values built by
`SetBytes`); byte strings as `List Nat` of values `< 256`; text as
`String` where only equality is used, and as `List Nat` of code points
where the base64url alphabet matters.  The HTTP fetch and the RSA
signature primitive live outside this repository (net/http,
crypto/rsa, golang-jwt); they enter the model as parameters: the fetch
outcome as an `Except`, signature verification as a boolean function
of key, signing input and signature.  The mutex serialises the whole
read-check / write-locked-refresh body, so a set of concurrent calls
is modelled by an arbitrary sequential interleaving of calls.
-/

/-- A JWK entry as decoded from the provider's JWKS document
(`type JWK` in jwt.go).  `n` and `e` are the base64url text of the
modulus and exponent, kept as lists of character code points. -/
structure JWK where
  kty : String
  kid : String
  use : String
  n : List Nat
  e : List Nat
deriving DecidableEq, Repr

/-- The JWKS document (`type JWKSet` in jwt.go). -/
structure JWKSet where
  keys : List JWK
deriving DecidableEq, Repr

/-- `rsa.PublicKey`: modulus `N` (a non-negative big integer) and public
exponent `E`.  In Go `E` is an `int` produced from a non-negative
`big.Int` checked with `IsInt64`, hence a `Nat` here. -/
structure RSAPublicKey where
  N : Nat
  E : Nat
deriving DecidableEq, Repr

/-! ### base64url (unpadded) — `base64.RawURLEncoding`

Go's `RawURLEncoding` uses the alphabet
`A–Z a–z 0–9 - _` without padding.  `DecodeString` rejects any
character outside the alphabet and a leftover group of one character;
it does not reject non-zero trailing bits (the default, non-strict
decoder), which the round-trip proof never relies on. -/

/-- The base64url alphabet: sextet value (< 64) to ASCII code point. -/
def sextetToChar (s : Nat) : Nat :=
  if s < 26 then 65 + s
  else if s < 52 then 97 + (s - 26)
  else if s < 62 then 48 + (s - 52)
  else if s = 62 then 45
  else 95

/-- Inverse alphabet lookup: ASCII code point to sextet value, `none`
for characters outside the base64url alphabet. -/
def charToSextet (c : Nat) : Option Nat :=
  if 65 ≤ c ∧ c ≤ 90 then some (c - 65)
  else if 97 ≤ c ∧ c ≤ 122 then some (26 + (c - 97))
  else if 48 ≤ c ∧ c ≤ 57 then some (52 + (c - 48))
  else if c = 45 then some 62
  else if c = 95 then some 63
  else none

/-- Unpadded base64url encoding of a byte string (values < 256) into
character code points, three bytes to four characters, with the
standard 1- and 2-byte tails. -/
def b64Encode : List Nat → List Nat
  | [] => []
  | [a] => [sextetToChar (a / 4), sextetToChar (a % 4 * 16)]
  | [a, b] => [sextetToChar (a / 4), sextetToChar (a % 4 * 16 + b / 16),
               sextetToChar (b % 16 * 4)]
  | a :: b :: c :: rest =>
      sextetToChar (a / 4) :: sextetToChar (a % 4 * 16 + b / 16) ::
      sextetToChar (b % 16 * 4 + c / 64) :: sextetToChar (c % 64) :: b64Encode rest

/-- Unpadded base64url decoding, `none` on an alphabet violation or a
leftover single character (Go: `CorruptInputError`). -/
def b64Decode : List Nat → Option (List Nat)
  | [] => some []
  | [_] => none
  | [w, x] =>
      match charToSextet w, charToSextet x with
      | some w', some x' => some [w' * 4 + x' / 16]
      | _, _ => none
  | [w, x, y] =>
      match charToSextet w, charToSextet x, charToSextet y with
      | some w', some x', some y' =>
          some [w' * 4 + x' / 16, x' % 16 * 16 + y' / 4]
      | _, _, _ => none
  | w :: x :: y :: z :: rest =>
      match charToSextet w, charToSextet x, charToSextet y, charToSextet z with
      | some w', some x', some y', some z' =>
          match b64Decode rest with
          | some tail =>
              some ((w' * 4 + x' / 16) :: (x' % 16 * 16 + y' / 4) ::
                    (y' % 4 * 64 + z') :: tail)
          | none => none
      | _, _, _, _ => none

/-! ### big-endian byte strings — `big.Int.SetBytes` / `big.Int.Bytes` -/

/-- `big.Int.SetBytes`: interpret a byte string as a big-endian
unsigned integer. -/
def fromBytes (bs : List Nat) : Nat :=
  bs.foldl (fun acc b => acc * 256 + b) 0

/-- Helper for `toBytes`, structural in the fuel so that the kernel can
evaluate it (`fuel ≥ n` suffices). -/
def toBytesAux : Nat → Nat → List Nat
  | 0, _ => []
  | fuel + 1, n => if n = 0 then [] else toBytesAux fuel (n / 256) ++ [n % 256]

/-- `big.Int.Bytes`: the minimal big-endian byte string of a
non-negative integer (empty for 0). -/
def toBytes (n : Nat) : List Nat := toBytesAux n n

/-! ### `parseRSAPublicKey` -/

/-- `parseRSAPublicKey` (jwt.go lines 189–211): base64url-decode the
JWK's `n` and `e`, build big-endian integers, reject an exponent that
does not fit an `int64` (`IsInt64`; the value is non-negative, so the
bound is `< 2^63`). -/
def parseRSAPublicKey (jwk : JWK) : Option RSAPublicKey :=
  match b64Decode jwk.n with
  | none => none
  | some nBytes =>
    match b64Decode jwk.e with
    | none => none
    | some eBytes =>
      let n := fromBytes nBytes
      let e := fromBytes eBytes
      if e < 2 ^ 63 then some { N := n, E := e } else none

/-- The provider-side serialization of a public key into a JWK: `n` and
`e` are the unpadded base64url encodings of the minimal big-endian
byte strings of modulus and exponent (as Keycloak publishes them). -/
def serializeJWK (kid : String) (pk : RSAPublicKey) : JWK :=
  { kty := "RSA", kid := kid, use := "sig",
    n := b64Encode (toBytes pk.N), e := b64Encode (toBytes pk.E) }

/-! ### The key cache — `JWTMiddleware.getPublicKey`

State of the `JWTMiddleware` singleton: the `kid → *rsa.PublicKey` map
and the `lastUpdate` timestamp.  Times are seconds; `time.Hour` is
3600; `time.Since(lastUpdate) < time.Hour` is `now - lastUpdate < 3600`
(Nat subtraction, and in the executions modelled `lastUpdate ≤ now`).
The `sync.RWMutex` serialises the whole body of `getPublicKey` in
practice: the only write section is the one holding the write lock,
and the read section is a pure lookup, so every concurrent execution
is equivalent to a sequential interleaving of whole calls. -/

structure CacheState where
  publicKeys : List (String × RSAPublicKey)
  lastUpdate : Nat
deriving DecidableEq, Repr

/-- Go map read `j.publicKeys[kid]`. -/
def lookupKey (m : List (String × RSAPublicKey)) (kid : String) : Option RSAPublicKey :=
  match m with
  | [] => none
  | (k, v) :: rest => if k == kid then some v else lookupKey rest kid

/-- Go map write `j.publicKeys[kid] = pk`. -/
def insertKey (m : List (String × RSAPublicKey)) (kid : String) (pk : RSAPublicKey) :
    List (String × RSAPublicKey) :=
  match m with
  | [] => [(kid, pk)]
  | (k, v) :: rest =>
      if k == kid then (kid, pk) :: rest else (k, v) :: insertKey rest kid pk

/-- Errors out of `getPublicKey`.  `fetchFailed` is the network error
of `client.Get`, `badStatus` the non-200 branch, `badJSON` the JSON
decode failure, `notFound` the fall-through after the key scan. -/
inductive KeyErr where
  | fetchFailed
  | badStatus (code : Nat)
  | badJSON
  | notFound (kid : String)
deriving DecidableEq, Repr

/-- Outcome of the HTTPS JWKS fetch, supplied by the environment
(net/http and the provider are outside this repository): either a
transport-level error already mapped to the corresponding `KeyErr`
branch of `getPublicKey`, or a decoded `JWKSet`. -/
def FetchOutcome : Type := Except KeyErr JWKSet

/-- The cached-and-fresh check done under the read lock (jwt.go line
136) and again under the write lock (line 146): the key must exist and
the last full refresh must be less than one hour old. -/
def checkCache (st : CacheState) (now : Nat) (kid : String) : Option RSAPublicKey :=
  match lookupKey st.publicKeys kid with
  | some k => if now - st.lastUpdate < 3600 then some k else none
  | none => none

/-- The scan over `jwkSet.Keys` (jwt.go lines 173–184): the first entry
whose `kid` matches and whose `kty` is `"RSA"` is parsed; a parse
failure is skipped (`continue`) and the scan goes on. -/
def findKeyInSet (keys : List JWK) (kid : String) : Option RSAPublicKey :=
  match keys with
  | [] => none
  | k :: rest =>
      if k.kid == kid && k.kty == "RSA" then
        match parseRSAPublicKey k with
        | some pk => some pk
        | none => findKeyInSet rest kid
      else findKeyInSet rest kid

/-- The fetch-and-scan body under the write lock (jwt.go lines 150–186).
On a successful scan the found key is stored under the requested `kid`
and `lastUpdate` is set to now; on any failure the state is unchanged.
The third component counts fetches issued to the provider (here 1). -/
def refreshCache (st : CacheState) (now : Nat) (kid : String) (fetch : FetchOutcome) :
    Except KeyErr RSAPublicKey × CacheState × Nat :=
  match fetch with
  | .error e => (.error e, st, 1)
  | .ok jwkSet =>
    match findKeyInSet jwkSet.keys kid with
    | some pk =>
        (.ok pk, { publicKeys := insertKey st.publicKeys kid pk, lastUpdate := now }, 1)
    | none => (.error (.notFound kid), st, 1)

/-- `getPublicKey` (jwt.go lines 133–187): read-locked cache check,
then write lock, double-check, then fetch and scan.  Between the two
checks no other writer can have run in this call's serialised slot, so
the state is the same at both; both checks are kept to mirror the
source. -/
def getPublicKey (st : CacheState) (now : Nat) (kid : String) (fetch : FetchOutcome) :
    Except KeyErr RSAPublicKey × CacheState × Nat :=
  match checkCache st now kid with
  | some k => (.ok k, st, 0)
  | none =>
    match checkCache st now kid with
    | some k => (.ok k, st, 0)
    | none => refreshCache st now kid fetch

/-- `n` sequential executions of `getPublicKey` for the same `kid`
against the same provider state: the mutex-serialised semantics of `n`
concurrent `validate()` calls that all miss the cache.  Returns the
per-call results, the final cache state, and the total number of
fetches issued to the provider. -/
def resolveSeq (now : Nat) (kid : String) (fetch : FetchOutcome) :
    CacheState → Nat → List (Except KeyErr RSAPublicKey) × CacheState × Nat
  | st, 0 => ([], st, 0)
  | st, n + 1 =>
      match getPublicKey st now kid fetch with
      | (r, st', c) =>
        match resolveSeq now kid fetch st' n with
        | (rs, st'', cs) => (r :: rs, st'', c + cs)

/-! ### The token and claims — `KeycloakClaims`, `ValidateJWT` -/

/-- The decoded JOSE header fields the middleware reads: `alg`, and
`kid` when present as a string (`token.Header["kid"].(string)`; absent
and non-string are the same failing type assertion). -/
structure Header where
  alg : String
  kid : Option String
deriving DecidableEq, Repr

/-- `KeycloakClaims`: the registered claims the pipeline reads
(`sub`, `exp`, `nbf`, `iss` — timestamps as Unix seconds) plus the
Keycloak profile and role claims. -/
structure Claims where
  sub : String
  exp : Option Nat
  nbf : Option Nat
  iss : Option String
  preferredUsername : String
  email : String
  name : String
  realmRoles : List String
deriving DecidableEq, Repr

/-- A parsed compact token: decoded header and claims, plus the
signing input (`header.payload` text) and signature that the library
feeds to `Method.Verify`. -/
structure TokenData where
  header : Header
  claims : Claims
  signingInput : String
  signature : String
deriving DecidableEq, Repr

/-- The identity attributes stored in the gin context on success
(jwt.go lines 123–127). -/
structure AuthContext where
  userId : String
  username : String
  email : String
  name : String
  roles : List String
deriving DecidableEq, Repr

/-- Validation errors, one per distinct failing branch of the
pipeline.  `unsupportedAlg` is the keyfunc's signing-method rejection,
`kidMissing` its `kid` type-assertion failure, `keyErr` wraps
`getPublicKey` errors, `invalidSignature` is `Method.Verify` failing,
`libExpired`/`libNotYetValid` are the golang-jwt v5 registered-claims
validator, `expired` the middleware's own re-check at line 116. -/
inductive VErr where
  | unsupportedAlg (alg : String)
  | kidMissing
  | keyErr (e : KeyErr)
  | invalidSignature
  | libExpired
  | libNotYetValid
  | expired
deriving DecidableEq, Repr

/-- The keyfunc's signing-method check (jwt.go line 78): the type
assertion `token.Method.(*jwt.SigningMethodRSA)` succeeds exactly for
the RSA PKCS#1 v1.5 family.  `alg: none` (`SigningMethodNone`), the
HMAC family and every other method fail it. -/
def allowedAlg (alg : String) : Bool :=
  alg == "RS256" || alg == "RS384" || alg == "RS512"

/-- golang-jwt v5 default expiry check: valid when `exp` is absent
(not required by default) or strictly in the future (`now.Before(exp)`
with zero leeway). -/
def expOK (now : Nat) (c : Claims) : Bool :=
  match c.exp with
  | some t => now < t
  | none => true

/-- golang-jwt v5 default not-before check: valid when `nbf` is absent
or not in the future (`!now.Before(nbf)`). -/
def nbfOK (now : Nat) (c : Claims) : Bool :=
  match c.nbf with
  | some t => t ≤ now
  | none => true

/-- The registered-claims validation run inside `ParseWithClaims`
(v5 defaults: expiry first, then not-before; no issuer or audience
expectation is configured by the middleware). -/
def libValidate (now : Nat) (c : Claims) : Option VErr :=
  if expOK now c then
    if nbfOK now c then none else some .libNotYetValid
  else some .libExpired

/-- The middleware's own expiry re-check (jwt.go line 116):
`claims.ExpiresAt != nil && claims.ExpiresAt.Time.Before(time.Now())`. -/
def mwExpired (now : Nat) (c : Claims) : Bool :=
  match c.exp with
  | some t => t < now
  | none => false

/-- The projection into the gin context (jwt.go lines 123–127). -/
def authContextOf (c : Claims) : AuthContext :=
  { userId := c.sub, username := c.preferredUsername, email := c.email,
    name := c.name, roles := c.realmRoles }

/-- One run of the `ValidateJWT` handler body on an already-split
token (jwt.go lines 76–130): keyfunc (algorithm check, `kid`
extraction, key resolution), signature verification, library claims
validation, the middleware's expiry re-check, and only then the
context writes.  `verify` is the `crypto/rsa` primitive behind
`Method.Verify`, a parameter of the model.  Returns the outcome, the
cache state after the call, and the number of JWKS fetches issued. -/
def validate (st : CacheState) (now : Nat) (tok : TokenData)
    (fetch : FetchOutcome) (verify : RSAPublicKey → String → String → Bool) :
    Except VErr AuthContext × CacheState × Nat :=
  if allowedAlg tok.header.alg then
    match tok.header.kid with
    | none => (.error .kidMissing, st, 0)
    | some kid =>
      match getPublicKey st now kid fetch with
      | (.error e, st', c) => (.error (.keyErr e), st', c)
      | (.ok key, st', c) =>
        if verify key tok.signingInput tok.signature then
          match libValidate now tok.claims with
          | some e => (.error e, st', c)
          | none =>
            if mwExpired now tok.claims then (.error .expired, st', c)
            else (.ok (authContextOf tok.claims), st', c)
        else (.error .invalidSignature, st', c)
  else (.error (.unsupportedAlg tok.header.alg), st, 0)

/-! ### Helper lemmas -/

/-- The base64url alphabet tables are mutually inverse on sextets. -/
theorem charToSextet_sextetToChar (s : Nat) (h : s < 64) :
    charToSextet (sextetToChar s) = some s := by
  unfold sextetToChar charToSextet
  split_ifs <;> first
    | (simp only [Option.some.injEq]; omega)
    | omega

/-- Decoding inverts encoding on byte strings. -/
theorem b64Decode_b64Encode (bs : List Nat) (h : ∀ b ∈ bs, b < 256) :
    b64Decode (b64Encode bs) = some bs := by
  induction bs using b64Encode.induct with
  | case1 => rfl
  | case2 a =>
      have ha : a < 256 := h a (by simp)
      rw [b64Encode, b64Decode, charToSextet_sextetToChar _ (by omega),
        charToSextet_sextetToChar _ (by omega)]
      simp only [Option.some.injEq, List.cons.injEq, and_true]
      omega
  | case3 a b =>
      have ha : a < 256 := h a (by simp)
      have hb : b < 256 := h b (by simp)
      rw [b64Encode, b64Decode, charToSextet_sextetToChar _ (by omega),
        charToSextet_sextetToChar _ (by omega), charToSextet_sextetToChar _ (by omega)]
      simp only [Option.some.injEq, List.cons.injEq, and_true]
      refine ⟨by omega, by omega⟩
  | case4 a b c rest ih =>
      have ha : a < 256 := h a (by simp)
      have hb : b < 256 := h b (by simp)
      have hc : c < 256 := h c (by simp)
      have hrest : ∀ x ∈ rest, x < 256 := fun x hx => h x (by simp [hx])
      rw [b64Encode, b64Decode, charToSextet_sextetToChar _ (by omega),
        charToSextet_sextetToChar _ (by omega), charToSextet_sextetToChar _ (by omega),
        charToSextet_sextetToChar _ (by omega), ih hrest]
      simp only [Option.some.injEq, List.cons.injEq, and_true]
      refine ⟨by omega, by omega, by omega⟩

theorem fromBytes_append_singleton (xs : List Nat) (b : Nat) :
    fromBytes (xs ++ [b]) = fromBytes xs * 256 + b := by
  simp [fromBytes, List.foldl_append]

theorem toBytesAux_sound (fuel : Nat) :
    ∀ n, n ≤ fuel → fromBytes (toBytesAux fuel n) = n := by
  induction fuel with
  | zero =>
      intro n hn
      have : n = 0 := Nat.le_zero.mp hn
      subst this
      rfl
  | succ fuel ih =>
      intro n hn
      rw [toBytesAux]
      by_cases h0 : n = 0
      · subst h0; simp [fromBytes]
      · have hdiv : n / 256 ≤ fuel := by
          have := Nat.div_lt_self (Nat.pos_of_ne_zero h0) (by omega : 1 < 256)
          omega
        simp only [h0, if_false]
        rw [fromBytes_append_singleton, ih _ hdiv]
        omega

/-- `SetBytes` inverts `Bytes`: the big-endian byte string of `n` reads
back as `n`. -/
theorem fromBytes_toBytes (n : Nat) : fromBytes (toBytes n) = n :=
  toBytesAux_sound n n le_rfl

theorem toBytesAux_lt (fuel : Nat) :
    ∀ n, ∀ b ∈ toBytesAux fuel n, b < 256 := by
  induction fuel with
  | zero => intro n b hb; simp [toBytesAux] at hb
  | succ fuel ih =>
      intro n b hb
      rw [toBytesAux] at hb
      by_cases h0 : n = 0
      · simp [h0] at hb
      · simp only [h0, if_false, List.mem_append, List.mem_singleton] at hb
        rcases hb with hb | hb
        · exact ih _ b hb
        · subst hb; exact Nat.mod_lt _ (by omega)

theorem toBytes_lt (n : Nat) : ∀ b ∈ toBytes n, b < 256 :=
  toBytesAux_lt n n

/-! ### C8 -/

/-- C8: serializing an RSA public key's modulus and exponent as
unpadded base64url big-endian byte strings into a JWK's `n`/`e` fields
and reconstructing the key with `parseRSAPublicKey` yields the same
public key, whenever the exponent passes the wire-format range check
(`IsInt64`, i.e. `E < 2^63`).  Since the reconstructed key is equal to
the original, any signature-verification procedure accepts under it
exactly the signatures it accepts under the original key. -/
theorem parseRSAPublicKey_serializeJWK (kid : String) (pk : RSAPublicKey)
    (h : pk.E < 2 ^ 63) :
    parseRSAPublicKey (serializeJWK kid pk) = some pk := by
  unfold parseRSAPublicKey serializeJWK
  rw [b64Decode_b64Encode _ (toBytes_lt pk.N), b64Decode_b64Encode _ (toBytes_lt pk.E)]
  simp only [fromBytes_toBytes]
  rw [if_pos h]

/-- Witness for C8 at the 1024-style toy key `N = 3233`, `E = 17`. -/
theorem parseRSAPublicKey_serializeJWK_witness :
    parseRSAPublicKey (serializeJWK "abc123" { N := 3233, E := 17 })
      = some { N := 3233, E := 17 } :=
  parseRSAPublicKey_serializeJWK "abc123" { N := 3233, E := 17 } (by decide)

/-! ### C1 -/

/-- C1: a token whose declared algorithm fails the RSA signing-method
check — `alg: none`, every HMAC (symmetric) algorithm, anything but
RS256/RS384/RS512 — is rejected as the unsupported-algorithm error
with the cache untouched and zero fetches issued, whatever the fetch
outcome, the verifier, and the token's claim content. -/
theorem validate_rejects_unsupported_alg (st : CacheState) (now : Nat)
    (tok : TokenData) (fetch : FetchOutcome)
    (verify : RSAPublicKey → String → String → Bool)
    (h : allowedAlg tok.header.alg = false) :
    validate st now tok fetch verify =
      (.error (.unsupportedAlg tok.header.alg), st, 0) := by
  simp [validate, h]

/-- Witness for C1: an `alg: none` token whose claim content would
otherwise pass every check (fresh expiry, cached key id). -/
theorem validate_rejects_unsupported_alg_witness :
    validate ⟨[("k1", ⟨3233, 17⟩)], 100⟩ 100
      ⟨⟨"none", some "k1"⟩, ⟨"user-42", some 200, none, none, "u", "e", "nm", []⟩,
        "si", "sg"⟩
      (.error .fetchFailed) (fun _ _ _ => true)
      = (.error (.unsupportedAlg "none"), ⟨[("k1", ⟨3233, 17⟩)], 100⟩, 0) :=
  validate_rejects_unsupported_alg _ _ _ _ _ (by decide)

/-! ### C9 -/

/-- C9: a token whose header has no string `kid` field is rejected
(with the algorithm error when the algorithm check fails first,
otherwise the missing-kid error) before any key lookup or fetch: the
cache state is returned unchanged, the fetch count is zero, the
outcome does not depend on the fetch result or the verifier, and no
identity attributes are produced. -/
theorem validate_rejects_missing_kid (st : CacheState) (now : Nat)
    (tok : TokenData) (fetch : FetchOutcome)
    (verify : RSAPublicKey → String → String → Bool)
    (h : tok.header.kid = none) :
    validate st now tok fetch verify =
      ((if allowedAlg tok.header.alg then Except.error VErr.kidMissing
        else Except.error (VErr.unsupportedAlg tok.header.alg)), st, 0) := by
  by_cases hA : allowedAlg tok.header.alg = true
  · simp [validate, h, hA]
  · simp only [Bool.not_eq_true] at hA
    simp [validate, h, hA]

/-- Witness for C9: an RS256 token with no `kid` header. -/
theorem validate_rejects_missing_kid_witness :
    validate ⟨[], 0⟩ 5
      ⟨⟨"RS256", none⟩, ⟨"s", some 999, none, none, "u", "e", "nm", []⟩, "si", "sg"⟩
      (.error .fetchFailed) (fun _ _ _ => true)
      = (.error .kidMissing, ⟨[], 0⟩, 0) :=
  validate_rejects_missing_kid _ _ _ _ _ rfl

/-! ### C2 -/

/-- The v5 registered-claims validator passes exactly when the expiry
and not-before checks both pass. -/
theorem libValidate_none_iff (now : Nat) (c : Claims) :
    libValidate now c = none ↔ expOK now c = true ∧ nbfOK now c = true := by
  unfold libValidate
  split_ifs with h1 h2 <;> simp_all

/-- C2: identity attributes reach the request context only when every
stage succeeded.  If a run of the handler returns an `AuthContext`,
then the algorithm check passed, a string `kid` was present, key
resolution succeeded (accounting for the final cache state and fetch
count), the signature verified, the library's expiry and not-before
checks passed, the middleware's own expiry re-check passed, and the
context is exactly the claims projection.  Any failure instead yields
an error carrying no identity attributes, so no partially
authenticated state is observable. -/
theorem validate_ok_all_stages (st : CacheState) (now : Nat) (tok : TokenData)
    (fetch : FetchOutcome) (verify : RSAPublicKey → String → String → Bool)
    (ctx : AuthContext) (st' : CacheState) (c : Nat)
    (h : validate st now tok fetch verify = (.ok ctx, st', c)) :
    allowedAlg tok.header.alg = true ∧
    ∃ kid key, tok.header.kid = some kid ∧
      getPublicKey st now kid fetch = (.ok key, st', c) ∧
      verify key tok.signingInput tok.signature = true ∧
      expOK now tok.claims = true ∧ nbfOK now tok.claims = true ∧
      mwExpired now tok.claims = false ∧
      ctx = authContextOf tok.claims := by
  unfold validate at h
  split at h
  case isFalse hA => simp at h
  case isTrue hA =>
    split at h
    case h_1 hK => simp at h
    case h_2 kid hK =>
      split at h
      case h_1 e st'' c' hG => simp at h
      case h_2 key st'' c' hG =>
        split at h
        case isFalse hV => simp at h
        case isTrue hV =>
          split at h
          case h_1 e hLib => simp at h
          case h_2 hLib =>
            split at h
            case isTrue hMw => simp at h
            case isFalse hMw =>
              obtain ⟨hctx, hst, hc⟩ : authContextOf tok.claims = ctx ∧ st'' = st' ∧ c' = c := by
                simpa using h
              obtain ⟨he, hn⟩ := (libValidate_none_iff now tok.claims).mp hLib
              refine ⟨hA, kid, key, hK, ?_, hV, he, hn, ?_, ?_⟩
              · rw [hG, hst, hc]
              · simpa using hMw
              · simpa using hctx.symm

/-- Witness for C2: a fully successful run — warm fresh cache, RS256,
verifying signature, live expiry — satisfies every stage condition. -/
theorem validate_ok_all_stages_witness :
    allowedAlg "RS256" = true ∧
    ∃ kid key, (some "k1" : Option String) = some kid ∧
      getPublicKey ⟨[("k1", ⟨3233, 17⟩)], 100⟩ 100 kid (.error .fetchFailed)
        = (.ok key, ⟨[("k1", ⟨3233, 17⟩)], 100⟩, 0) ∧
      (fun (_ : RSAPublicKey) (_ _ : String) => true) key "si" "sg" = true ∧
      expOK 100 ⟨"user-42", some 200, none, none, "u", "e", "nm", []⟩ = true ∧
      nbfOK 100 ⟨"user-42", some 200, none, none, "u", "e", "nm", []⟩ = true ∧
      mwExpired 100 ⟨"user-42", some 200, none, none, "u", "e", "nm", []⟩ = false ∧
      (⟨"user-42", "u", "e", "nm", []⟩ : AuthContext)
        = authContextOf ⟨"user-42", some 200, none, none, "u", "e", "nm", []⟩ :=
  validate_ok_all_stages ⟨[("k1", ⟨3233, 17⟩)], 100⟩ 100
    ⟨⟨"RS256", some "k1"⟩, ⟨"user-42", some 200, none, none, "u", "e", "nm", []⟩,
      "si", "sg"⟩
    (.error .fetchFailed) (fun _ _ _ => true)
    ⟨"user-42", "u", "e", "nm", []⟩ ⟨[("k1", ⟨3233, 17⟩)], 100⟩ 0 rfl

/-! ### C3 -/

/-- C3 counterexample: a token carrying no `exp` claim at all is
accepted.  The golang-jwt v5 validator treats expiry as optional by
default (`WithExpirationRequired` is not passed) and the middleware's
re-check runs only when `ExpiresAt != nil`, so the claim's "a token
with no expiry claim at all is rejected" is false on the code. -/
theorem validate_accepts_missing_exp :
    validate ⟨[("k1", ⟨3233, 17⟩)], 100⟩ 100
      ⟨⟨"RS256", some "k1"⟩, ⟨"user-42", none, none, none, "u", "e", "nm", []⟩,
        "si", "sg"⟩
      (.error .fetchFailed) (fun _ _ _ => true)
      = (.ok ⟨"user-42", "u", "e", "nm", []⟩, ⟨[("k1", ⟨3233, 17⟩)], 100⟩, 0) :=
  rfl

/-- C3 amended: when the `exp` claim is present, validation of a token
that reaches claims validation (algorithm passed, key resolved,
signature verified) succeeds only if `exp` is strictly after the
current time, and a token with `exp` not in the future is rejected as
expired even though its signature verified; a token with no `exp`
claim is not rejected by the expiry checks. -/
theorem validate_expired_token (st : CacheState) (now : Nat) (tok : TokenData)
    (fetch : FetchOutcome) (verify : RSAPublicKey → String → String → Bool)
    (kid : String) (key : RSAPublicKey) (st' : CacheState) (c : Nat) (t : Nat)
    (hA : allowedAlg tok.header.alg = true)
    (hK : tok.header.kid = some kid)
    (hG : getPublicKey st now kid fetch = (.ok key, st', c))
    (hV : verify key tok.signingInput tok.signature = true)
    (hE : tok.claims.exp = some t) (hT : t ≤ now) :
    validate st now tok fetch verify = (.error .libExpired, st', c) := by
  have hexp : expOK now tok.claims = false := by
    unfold expOK
    rw [hE]
    simp only [decide_eq_false_iff_not]
    omega
  have hlib : libValidate now tok.claims = some .libExpired := by
    simp [libValidate, hexp]
  simp [validate, hA, hK, hG, hV, hlib]

/-- Witness for C3's amended theorem: `exp = 50` in the past of
`now = 100`, signature valid, key cached. -/
theorem validate_expired_token_witness :
    validate ⟨[("k1", ⟨3233, 17⟩)], 100⟩ 100
      ⟨⟨"RS256", some "k1"⟩, ⟨"user-42", some 50, none, none, "u", "e", "nm", []⟩,
        "si", "sg"⟩
      (.error .fetchFailed) (fun _ _ _ => true)
      = (.error .libExpired, ⟨[("k1", ⟨3233, 17⟩)], 100⟩, 0) :=
  validate_expired_token ⟨[("k1", ⟨3233, 17⟩)], 100⟩ 100
    ⟨⟨"RS256", some "k1"⟩, ⟨"user-42", some 50, none, none, "u", "e", "nm", []⟩,
      "si", "sg"⟩
    (.error .fetchFailed) (fun _ _ _ => true)
    "k1" ⟨3233, 17⟩ ⟨[("k1", ⟨3233, 17⟩)], 100⟩ 0 50
    rfl rfl rfl rfl rfl (by omega)

/-! ### C4 -/

/-- C4 counterexample: a token whose `iss` claim is an attacker URL —
not the provider/realm URL of the middleware's configuration — is
accepted.  `ValidateJWT` never reads the issuer claim and configures
no expected issuer in the library, so no ClaimsInvalid arises. -/
theorem validate_accepts_wrong_issuer :
    validate ⟨[("k1", ⟨3233, 17⟩)], 100⟩ 100
      ⟨⟨"RS256", some "k1"⟩,
        ⟨"user-42", some 200, none, some "https://attacker.example/realms/evil",
          "u", "e", "nm", []⟩, "si", "sg"⟩
      (.error .fetchFailed) (fun _ _ _ => true)
      = (.ok ⟨"user-42", "u", "e", "nm", []⟩, ⟨[("k1", ⟨3233, 17⟩)], 100⟩, 0) :=
  rfl

/-- C4 amended: the middleware performs no issuer validation at all —
the outcome of `validate` (result, cache state and fetch count alike)
is independent of the token's `iss` claim. -/
theorem validate_issuer_independent (st : CacheState) (now : Nat) (tok : TokenData)
    (fetch : FetchOutcome) (verify : RSAPublicKey → String → String → Bool)
    (i i' : Option String) :
    validate st now { tok with claims := { tok.claims with iss := i } } fetch verify
      = validate st now { tok with claims := { tok.claims with iss := i' } } fetch verify := by
  simp [validate, libValidate, expOK, nbfOK, mwExpired, authContextOf]

/-! ### C5 -/

/-- C5 counterexample: the JWKS response holds two RSA keys, `"a"` and
`"b"`; resolving `"a"` succeeds but stores only `"a"` — the other RSA
key of the document is not merged into the cache. -/
theorem getPublicKey_merges_only_requested :
    getPublicKey ⟨[], 0⟩ 5000 "a"
      (.ok ⟨[serializeJWK "a" ⟨187, 7⟩, serializeJWK "b" ⟨189, 5⟩]⟩)
      = (.ok ⟨187, 7⟩, ⟨[("a", ⟨187, 7⟩)], 5000⟩, 1) ∧
    lookupKey [("a", ⟨187, 7⟩)] "b" = none :=
  ⟨rfl, rfl⟩

/-- Map lookups at other keys are untouched by an insert. -/
theorem lookupKey_insertKey_ne (m : List (String × RSAPublicKey)) (kid k' : String)
    (pk : RSAPublicKey) (h : k' ≠ kid) :
    lookupKey (insertKey m kid pk) k' = lookupKey m k' := by
  induction m with
  | nil => simp [insertKey, lookupKey, beq_iff_eq, Ne.symm h]
  | cons p rest ih =>
      obtain ⟨k, v⟩ := p
      by_cases hk : k = kid
      · subst hk
        simp [insertKey, lookupKey, beq_iff_eq, Ne.symm h]
      · simp [insertKey, lookupKey, beq_iff_eq, hk, ih]

/-- C5 amended: a refresh that finds the requested `kid` stores only
that one key (other entries of the document, RSA ones included, are
not merged: every other cache slot is unchanged), and an entry whose
key type is not `"RSA"` is skipped by the scan without any error. -/
theorem getPublicKey_stores_requested_only (st : CacheState) (now : Nat)
    (kid : String) (jwks : JWKSet) (pk : RSAPublicKey)
    (hC : checkCache st now kid = none)
    (hF : findKeyInSet jwks.keys kid = some pk) :
    getPublicKey st now kid (.ok jwks)
      = (.ok pk, ⟨insertKey st.publicKeys kid pk, now⟩, 1) ∧
    (∀ k', k' ≠ kid →
      lookupKey (insertKey st.publicKeys kid pk) k' = lookupKey st.publicKeys k') ∧
    (∀ (j : JWK) (rest : List JWK), j.kty ≠ "RSA" →
      findKeyInSet (j :: rest) kid = findKeyInSet rest kid) := by
  refine ⟨?_, ?_, ?_⟩
  · simp [getPublicKey, hC, refreshCache, hF]
  · intro k' hk'
    exact lookupKey_insertKey_ne st.publicKeys kid k' pk hk'
  · intro j rest hj
    simp [findKeyInSet, beq_iff_eq, hj]

/-- Witness for C5's amended theorem at the two-key document. -/
theorem getPublicKey_stores_requested_only_witness :
    getPublicKey ⟨[], 0⟩ 5000 "a"
      (.ok ⟨[serializeJWK "a" ⟨187, 7⟩, serializeJWK "b" ⟨189, 5⟩]⟩)
      = (.ok ⟨187, 7⟩, ⟨[("a", ⟨187, 7⟩)], 5000⟩, 1) ∧
    (∀ k', k' ≠ "a" → lookupKey (insertKey [] "a" ⟨187, 7⟩) k' = lookupKey [] k') ∧
    (∀ (j : JWK) (rest : List JWK), j.kty ≠ "RSA" →
      findKeyInSet (j :: rest) "a" = findKeyInSet rest "a") :=
  getPublicKey_stores_requested_only ⟨[], 0⟩ 5000 "a"
    ⟨[serializeJWK "a" ⟨187, 7⟩, serializeJWK "b" ⟨189, 5⟩]⟩ ⟨187, 7⟩ rfl rfl

/-! ### C6 -/

/-- A refresh whose document lacks the requested `kid` fails with
KeyNotFound and leaves the cache state — map and `lastUpdate` alike —
unchanged, after issuing one fetch. -/
theorem getPublicKey_notFound (st : CacheState) (now : Nat) (kid : String)
    (jwks : JWKSet) (hC : checkCache st now kid = none)
    (hF : findKeyInSet jwks.keys kid = none) :
    getPublicKey st now kid (.ok jwks) = (.error (.notFound kid), st, 1) := by
  simp [getPublicKey, hC, refreshCache, hF]

/-- C6 counterexample: two back-to-back resolves of the same unknown
`kid` at the same instant — well inside any TTL window — issue two
fetches to the provider, not one: the failed refresh does not update
`lastUpdate` or the map, so nothing suppresses the second fetch. -/
theorem resolveSeq_two_refetches :
    resolveSeq 100 "x" (.ok ⟨[]⟩) ⟨[], 0⟩ 2
      = ([.error (.notFound "x"), .error (.notFound "x")], ⟨[], 0⟩, 2) :=
  rfl

/-- C6 amended: resolving a `kid` absent from a successfully fetched
document returns KeyNotFound, but does not start a TTL back-off: the
state is unchanged, so an immediately following resolve for the same
`kid` performs its own fetch (two fetches across two calls). -/
theorem getPublicKey_notFound_no_backoff (st : CacheState) (now : Nat)
    (kid : String) (jwks : JWKSet)
    (hC : checkCache st now kid = none)
    (hF : findKeyInSet jwks.keys kid = none) :
    getPublicKey st now kid (.ok jwks) = (.error (.notFound kid), st, 1) ∧
    resolveSeq now kid (.ok jwks) st 2
      = ([.error (.notFound kid), .error (.notFound kid)], st, 2) := by
  have h1 := getPublicKey_notFound st now kid jwks hC hF
  refine ⟨h1, ?_⟩
  simp [resolveSeq, h1]

/-- Witness for C6's amended theorem: empty cache, empty document. -/
theorem getPublicKey_notFound_no_backoff_witness :
    getPublicKey ⟨[], 0⟩ 100 "x" (.ok ⟨[]⟩) = (.error (.notFound "x"), ⟨[], 0⟩, 1) ∧
    resolveSeq 100 "x" (.ok ⟨[]⟩) ⟨[], 0⟩ 2
      = ([.error (.notFound "x"), .error (.notFound "x")], ⟨[], 0⟩, 2) :=
  getPublicKey_notFound_no_backoff ⟨[], 0⟩ 100 "x" ⟨[]⟩ rfl rfl

/-! ### C7 -/

/-- C7 counterexample: three serialised calls — the mutex-ordered
execution of three concurrent `validate()` calls sharing one unknown
`kid` within a single TTL window — issue three fetches to the
provider, not at most one: each caller's double-check still misses
because the failed refresh marks nothing, so each issues its own
fetch. -/
theorem resolveSeq_three_fetches :
    resolveSeq 200 "kid-x" (.ok ⟨[]⟩) ⟨[], 0⟩ 3
      = ([.error (.notFound "kid-x"), .error (.notFound "kid-x"),
          .error (.notFound "kid-x")], ⟨[], 0⟩, 3) :=
  rfl

/-- C7 amended: under `n` mutex-serialised calls for the same unknown
`kid` in one TTL window, every call receives KeyNotFound (and fetches
are never concurrent, since each happens under the exclusive lock),
but the number of fetches issued to the provider is `n` — one per
call — not at most one. -/
theorem resolveSeq_notFound_all (st : CacheState) (now : Nat) (kid : String)
    (jwks : JWKSet) (hC : checkCache st now kid = none)
    (hF : findKeyInSet jwks.keys kid = none) (n : Nat) :
    resolveSeq now kid (.ok jwks) st n
      = (List.replicate n (.error (.notFound kid)), st, n) := by
  induction n with
  | zero => rfl
  | succ n ih =>
      have h1 := getPublicKey_notFound st now kid jwks hC hF
      simp [resolveSeq, h1, ih, List.replicate_succ]
      omega

/-- Witness for C7's amended theorem at `n = 4`. -/
theorem resolveSeq_notFound_all_witness :
    resolveSeq 100 "x" (.ok ⟨[]⟩) ⟨[], 0⟩ 4
      = (List.replicate 4 (.error (.notFound "x")), ⟨[], 0⟩, 4) :=
  resolveSeq_notFound_all ⟨[], 0⟩ 100 "x" ⟨[]⟩ rfl rfl 4

/-! ### C10 -/

/-- When every entry matching the requested `kid` (of RSA type) fails
to decode, the scan finds nothing. -/
theorem findKeyInSet_none_of_bad (kid : String) (keys : List JWK)
    (h : ∀ k ∈ keys, k.kid = kid → k.kty = "RSA" → parseRSAPublicKey k = none) :
    findKeyInSet keys kid = none := by
  induction keys with
  | nil => rfl
  | cons k rest ih =>
      have hrest : ∀ x ∈ rest, x.kid = kid → x.kty = "RSA" → parseRSAPublicKey x = none :=
        fun x hx => h x (List.mem_cons_of_mem _ hx)
      by_cases hm : (k.kid == kid && k.kty == "RSA") = true
      · have hkid : k.kid = kid := by
          have := (Bool.and_eq_true _ _).mp hm
          simpa [beq_iff_eq] using this.1
        have hty : k.kty = "RSA" := by
          have := (Bool.and_eq_true _ _).mp hm
          simpa [beq_iff_eq] using this.2
        have hbad := h k (List.mem_cons_self _ _) hkid hty
        simp [findKeyInSet, hm, hbad, ih hrest]
      · simp only [Bool.not_eq_true] at hm
        simp [findKeyInSet, hm, ih hrest]

/-- C10: a matching RSA JWKS entry that fails to decode (bad base64url
modulus/exponent or an out-of-range exponent) is skipped and the scan
continues with the remaining keys; when no matching entry decodes, the
refresh ends in KeyNotFound — never in a decode error. -/
theorem resolve_skips_undecodable (kid : String) (keys : List JWK)
    (st : CacheState) (now : Nat)
    (h : ∀ k ∈ keys, k.kid = kid → k.kty = "RSA" → parseRSAPublicKey k = none)
    (hC : checkCache st now kid = none) :
    (∀ (k : JWK) (rest : List JWK), k.kid = kid → k.kty = "RSA" →
      parseRSAPublicKey k = none → findKeyInSet (k :: rest) kid = findKeyInSet rest kid) ∧
    getPublicKey st now kid (.ok ⟨keys⟩) = (.error (.notFound kid), st, 1) := by
  constructor
  · intro k rest hkid hty hbad
    simp [findKeyInSet, hkid, hty, hbad]
  · exact getPublicKey_notFound st now kid ⟨keys⟩ hC (findKeyInSet_none_of_bad kid keys h)

/-- Witness for C10: one matching RSA entry whose modulus text `"!"`
is no base64url and whose exponent text is a single character; the
resolve ends in KeyNotFound. -/
theorem resolve_skips_undecodable_witness :
    (∀ (k : JWK) (rest : List JWK), k.kid = "x" → k.kty = "RSA" →
      parseRSAPublicKey k = none → findKeyInSet (k :: rest) "x" = findKeyInSet rest "x") ∧
    getPublicKey ⟨[], 0⟩ 0 "x" (.ok ⟨[⟨"RSA", "x", "sig", [33], [65]⟩]⟩)
      = (.error (.notFound "x"), ⟨[], 0⟩, 1) :=
  resolve_skips_undecodable "x" [⟨"RSA", "x", "sig", [33], [65]⟩] ⟨[], 0⟩ 0
    (by decide) rfl
